import Mathlib

/-!
Verification of the EDGEBOTPRO policy engine and position lifecycle.

The definitions below are a shallow embedding of the TypeScript source:
`src/services/policyEngine.ts` (feature extraction, entry signal, sizing,
inventory rebalancing, cadence limiting) and
`src/services/parityDiagnostics.ts` (position finalization, arbitrage
execution, settlement).  Prices, dollar amounts, share counts and
millisecond timestamps are modelled as rationals; nullable values as
`Option`; JS `Set`s of cycle keys as lists with decidable membership.
-/

namespace EdgeBot

/-- One of the two outcomes of a binary market. -/
inductive Side where
  | UP
  | DOWN
deriving DecidableEq, Repr

/-- `TapeState` from policyEngine.ts: current tick. -/
structure TapeState where
  timestamp : ℚ
  up_px : ℚ
  down_px : ℚ
  market : String
deriving Repr

/-- `PriceHistory` entry from policyEngine.ts. -/
structure PriceHistory where
  timestamp : ℚ
  up_px : ℚ
  down_px : ℚ
deriving Repr, DecidableEq

/-- `Features` from policyEngine.ts: optional fields are `Option`,
mirroring `field?: number` (absent, never defaulted). -/
structure Features where
  delta_1s_side_px : Option ℚ := none
  delta_5s_side_px : Option ℚ := none
  delta_30s_side_px : Option ℚ := none
  delta_1s_up_px : Option ℚ := none
  delta_5s_up_px : Option ℚ := none
  delta_30s_up_px : Option ℚ := none
  delta_1s_down_px : Option ℚ := none
  delta_5s_down_px : Option ℚ := none
  delta_30s_down_px : Option ℚ := none
  volatility_5s : Option ℚ := none
  volatility_30s : Option ℚ := none
  distance_from_50 : ℚ
deriving Repr

/-- `EntryParams` from paramLoader.ts, as used by policyEngine.ts:
nullable band bounds, a mode string, and a momentum threshold. -/
structure EntryParams where
  up_price_min : Option ℚ
  up_price_max : Option ℚ
  down_price_min : Option ℚ
  down_price_max : Option ℚ
  mode : String
  momentum_threshold : ℚ
deriving Repr

/-- `InventoryParams` from paramLoader.ts. -/
structure InventoryParams where
  rebalance_ratio_R : ℚ
  max_up_shares : ℚ
  max_down_shares : ℚ
  max_total_shares : ℚ
deriving Repr

/-- `CadenceParams` from paramLoader.ts. -/
structure CadenceParams where
  min_inter_trade_ms : ℚ
  max_trades_per_sec : ℚ
  max_trades_per_min : ℚ
deriving Repr

/-- `InventoryState` from policyEngine.ts. -/
structure InventoryState where
  inv_up_shares : ℚ
  inv_down_shares : ℚ
deriving Repr

/-- `EntrySignal` from policyEngine.ts. -/
structure EntrySignal where
  should_trade : Bool
  side : Option Side
  reason : String
deriving Repr, DecidableEq

/-! ### Feature extraction (`computeFeatures`, policyEngine.ts lines 57-121) -/

/-- The loop body of `findClosest` (policyEngine.ts lines 76-87): scan the
remaining history, keeping the entry whose timestamp is strictly closer to
the target. -/
def closestAux (target : ℚ) : PriceHistory → List PriceHistory → PriceHistory
  | c, [] => c
  | c, h :: rest =>
    if |h.timestamp - target| < |c.timestamp - target| then closestAux target h rest
    else closestAux target c rest

/-- The per-window delta computation of `computeFeatures` (lines 92-104):
find the history entry closest to `now - seconds*1000`; if its distance is
strictly below `seconds*2000` (2x the window) produce the pair
(UP delta, DOWN delta), else nothing. -/
def windowDelta (state : TapeState) (sorted : List PriceHistory) (seconds : ℚ) :
    Option (ℚ × ℚ) :=
  match sorted with
  | [] => none
  | h :: rest =>
    let target := state.timestamp - seconds * 1000
    let past := closestAux target h rest
    if |past.timestamp - target| < seconds * 2000 then
      some (state.up_px - past.up_px, state.down_px - past.down_px)
    else none

/-- The volatility computation of `computeFeatures` (lines 107-118):
population standard deviation of the UP prices of the samples inside the
trailing window, present only with at least two samples.  The standard
deviation itself is irrational in general; we keep the variance (its
square), which determines presence identically. -/
def windowVariance (state : TapeState) (sorted : List PriceHistory) (seconds : ℚ) :
    Option ℚ :=
  let windowTs := state.timestamp - seconds * 1000
  let windowPrices := (sorted.filter
    (fun h => windowTs ≤ h.timestamp ∧ h.timestamp ≤ state.timestamp)).map
    (fun h => h.up_px)
  if 1 < windowPrices.length then
    let n : ℚ := windowPrices.length
    let mean := windowPrices.sum / n
    some ((windowPrices.map (fun p => (p - mean) ^ 2)).sum / n)
  else none

/-- `computeFeatures` (policyEngine.ts lines 57-121): distance from parity is
always present; history is copied and sorted ascending by timestamp; each
delta window fills the UP, DOWN and side-aliased fields together; volatility
windows need two samples. -/
def computeFeatures (state : TapeState) (history : List PriceHistory) : Features :=
  let base : Features := { distance_from_50 := |state.up_px - 1/2| }
  match history with
  | [] => base
  | _ :: _ =>
    let sorted := history.mergeSort (fun a b => a.timestamp ≤ b.timestamp)
    let d1 := windowDelta state sorted 1
    let d5 := windowDelta state sorted 5
    let d30 := windowDelta state sorted 30
    { base with
      delta_1s_up_px := d1.map Prod.fst
      delta_1s_down_px := d1.map Prod.snd
      delta_1s_side_px := d1.map Prod.fst
      delta_5s_up_px := d5.map Prod.fst
      delta_5s_down_px := d5.map Prod.snd
      delta_5s_side_px := d5.map Prod.fst
      delta_30s_up_px := d30.map Prod.fst
      delta_30s_down_px := d30.map Prod.snd
      delta_30s_side_px := d30.map Prod.fst
      volatility_5s := windowVariance state sorted 5
      volatility_30s := windowVariance state sorted 30 }

/-! ### Entry signal (`entrySignal`, policyEngine.ts lines 126-206) -/

/-- The UP-branch of `entrySignal` (lines 147-172): `some reason` when the
UP side fires, `none` otherwise.  `delta5s` is the side-aliased 5s delta
defaulted to 0 (`features.delta_5s_side_px ?? 0`). -/
def upEval (state : TapeState) (features : Features) (p : EntryParams) :
    Option String :=
  let upInBand : Bool :=
    match p.up_price_min, p.up_price_max with
    | some lo, some hi => decide (lo ≤ state.up_px ∧ state.up_px ≤ hi)
    | _, _ => false
  let delta5s := features.delta_5s_side_px.getD 0
  if upInBand then
    if p.mode = "momentum" then
      if delta5s < p.momentum_threshold then none else some "momentum_met"
    else if p.mode = "reversion" then
      if -p.momentum_threshold < delta5s then none else some "reversion_met"
    else some "up_price_band"
  else none

/-- The DOWN-branch of `entrySignal` (lines 175-203): uses the DOWN-specific
5s delta, falling back to the side-aliased delta when absent. -/
def downEval (state : TapeState) (features : Features) (p : EntryParams) :
    Option String :=
  let downInBand : Bool :=
    match p.down_price_min, p.down_price_max with
    | some lo, some hi => decide (lo ≤ state.down_px ∧ state.down_px ≤ hi)
    | _, _ => false
  let delta5s := features.delta_5s_side_px.getD 0
  let delta5sDown := features.delta_5s_down_px.getD delta5s
  if downInBand then
    if p.mode = "momentum" then
      if delta5sDown < p.momentum_threshold then none else some "momentum_met"
    else if p.mode = "reversion" then
      if -p.momentum_threshold < delta5sDown then none else some "reversion_met"
    else some "down_price_band"
  else none

/-- `entrySignal` (policyEngine.ts lines 126-206): no params means
no-trade; otherwise the UP branch is evaluated first and returns as soon as
it fires, then the DOWN branch, else `no_band_match`. -/
def entrySignal (state : TapeState) (features : Features)
    (entryParams : Option EntryParams) : EntrySignal :=
  match entryParams with
  | none => { should_trade := false, side := none, reason := "no_entry_params" }
  | some p =>
    match upEval state features p with
    | some r => { should_trade := true, side := some Side.UP, reason := r }
    | none =>
      match downEval state features p with
      | some r => { should_trade := true, side := some Side.DOWN, reason := r }
      | none => { should_trade := false, side := none, reason := "no_band_match" }

/-! ### Sizing (`sizeForTrade` bucket scan, policyEngine.ts lines 224-237) -/

/-- The bucket scan loop of `sizeForTrade` (lines 226-231): for each
consecutive edge pair, test `edges[i] <= px && px <= edges[i+1]`, first
match wins. -/
def bucketScan (px : ℚ) : List ℚ → Option ℕ
  | a :: b :: rest =>
    if a ≤ px ∧ px ≤ b then some 0
    else (bucketScan px (b :: rest)).map (· + 1)
  | _ => none

/-- The bucket index `sizeForTrade` ends up with (lines 226-237): the scan
result when it matched, otherwise bin 0 below the first edge and the last
bin (`length - 2`, as a possibly negative integer) above the last edge. -/
def bucketIndexFor (edges : List ℚ) (px : ℚ) : ℤ :=
  match bucketScan px edges with
  | some i => (i : ℤ)
  | none =>
    match edges with
    | [] => (edges.length : ℤ) - 2
    | e0 :: _ => if px < e0 then 0 else (edges.length : ℤ) - 2

/-! ### Inventory (`inventoryOkAndRebalance`, policyEngine.ts lines 261-312) -/

/-- `inventoryOkAndRebalance` (policyEngine.ts lines 261-312): `none`
params pass the proposed side through; otherwise reject at the total cap or
the proposed side's cap, then apply the skew-rebalance substitution. -/
def inventoryOkAndRebalance (inventory : InventoryState)
    (inventoryParams : Option InventoryParams) (proposedSide : Side) :
    Option Side :=
  match inventoryParams with
  | none => some proposedSide
  | some p =>
    let total := inventory.inv_up_shares + inventory.inv_down_shares
    let eps : ℚ := 1 / 1000000
    if p.max_total_shares ≤ total then none
    else if proposedSide = Side.UP ∧ p.max_up_shares ≤ inventory.inv_up_shares then none
    else if proposedSide = Side.DOWN ∧ p.max_down_shares ≤ inventory.inv_down_shares then none
    else
      let R := p.rebalance_ratio_R
      if eps < inventory.inv_up_shares ∧ eps < inventory.inv_down_shares then
        let ratio := inventory.inv_up_shares /
          (inventory.inv_up_shares + inventory.inv_down_shares)
        if R < ratio ∧ proposedSide = Side.UP then
          if inventory.inv_down_shares < p.max_down_shares ∧ total < p.max_total_shares then
            some Side.DOWN
          else none
        else if ratio < 1 - R ∧ proposedSide = Side.DOWN then
          if inventory.inv_up_shares < p.max_up_shares ∧ total < p.max_total_shares then
            some Side.UP
          else none
        else some proposedSide
      else some proposedSide

/-! ### Cadence (`cadenceOk`, policyEngine.ts lines 317-350) -/

/-- The rolling-window count of `cadenceOk`: timestamps in `[lo, hi]`. -/
def tradesInWindow (recent : List ℚ) (lo hi : ℚ) : ℕ :=
  (recent.filter (fun ts => lo ≤ ts ∧ ts ≤ hi)).length

/-- `cadenceOk` (policyEngine.ts lines 317-350): no params always allows;
otherwise reject below the minimum inter-trade gap, at the 1s-window cap,
or at the 60s-window cap. -/
def cadenceOk (lastTradeTs : Option ℚ) (recentTradeTimes : List ℚ)
    (cadenceParams : Option CadenceParams) (currentTs : ℚ) : Bool :=
  match cadenceParams with
  | none => true
  | some p =>
    let interTooSoon : Bool :=
      match lastTradeTs with
      | some last => decide (currentTs - last < p.min_inter_trade_ms)
      | none => false
    if interTooSoon then false
    else if p.max_trades_per_sec ≤
        (tradesInWindow recentTradeTimes (currentTs - 1000) currentTs : ℚ) then false
    else if p.max_trades_per_min ≤
        (tradesInWindow recentTradeTimes (currentTs - 60000) currentTs : ℚ) then false
    else true

/-! ### Position lifecycle (parityDiagnostics.ts) -/

/-- `MarketPosition` from parityDiagnostics.ts (lines 415-443). -/
structure MarketPosition where
  conditionId : String
  marketKey : String
  marketName : String
  marketSlug : String
  assetUp : String
  assetDown : String
  endDate : ℚ
  sharesUp : ℚ
  sharesDown : ℚ
  costUp : ℚ
  costDown : ℚ
  arbSharesUp : ℚ
  arbSharesDown : ℚ
  arbCostUp : ℚ
  arbCostDown : ℚ
  currentPriceUp : ℚ
  currentPriceDown : ℚ
  hasSplitPosition : Bool
  hasArbitragePosition : Bool
  isSettled : Bool
  settlementPnL : ℚ
  createdAt : ℚ
deriving Repr, DecidableEq

/-- `PositionBuildState` from parityDiagnostics.ts (lines 469-485). -/
structure PositionBuildState where
  marketKey : String
  targetUp : ℚ
  targetDown : ℚ
  investedUp : ℚ
  investedDown : ℚ
  lastTradeTime : ℚ
  nextTradeTime : ℚ
  tradeCount : ℕ
  avgPriceUp : ℚ
  avgPriceDown : ℚ
  initialPriceUp : ℚ
  initialPriceDown : ℚ
  lastRebalanceTime : ℚ
  momentumBias : ℚ
deriving Repr

/-- The market fields `finalizePosition` and `executeArbitrageTrade` read
from a `discoveredMarkets` entry. -/
structure DiscoveredMarket where
  conditionId : String
  marketKey : String
  marketName : String
  marketSlug : String
  assetUp : String
  assetDown : String
  endDate : ℚ
  priceUp : ℚ
  priceDown : ℚ
deriving Repr

/-- `finalizePosition` (parityDiagnostics.ts lines 1371-1416): shares per
side are invested amount over average fill price (0 when the average price
is not positive), invested amounts become the costs, arbitrage fields start
empty, the split flag is set. -/
def finalizePosition (market : DiscoveredMarket) (buildState : PositionBuildState)
    (now : ℚ) : MarketPosition :=
  let sharesUp := if 0 < buildState.avgPriceUp then
    buildState.investedUp / buildState.avgPriceUp else 0
  let sharesDown := if 0 < buildState.avgPriceDown then
    buildState.investedDown / buildState.avgPriceDown else 0
  { conditionId := market.conditionId
    marketKey := market.marketKey
    marketName := market.marketName
    marketSlug := market.marketSlug
    assetUp := market.assetUp
    assetDown := market.assetDown
    endDate := market.endDate
    sharesUp := sharesUp
    sharesDown := sharesDown
    costUp := buildState.investedUp
    costDown := buildState.investedDown
    arbSharesUp := 0
    arbSharesDown := 0
    arbCostUp := 0
    arbCostDown := 0
    currentPriceUp := market.priceUp
    currentPriceDown := market.priceDown
    hasSplitPosition := true
    hasArbitragePosition := false
    isSettled := false
    settlementPnL := 0
    createdAt := now }

/-- `EXPIRATION_WINDOW_MS` (parityDiagnostics.ts line 378). -/
def EXPIRATION_WINDOW_MS : ℚ := 2 * 60 * 1000

/-- `CLEAR_OUTCOME_THRESHOLD` (line 379). -/
def CLEAR_OUTCOME_THRESHOLD : ℚ := 0.95

/-- `MAX_LOSER_PRICE` (line 380). -/
def MAX_LOSER_PRICE : ℚ := 0.05

/-- `MIN_LOSER_PRICE` (line 381). -/
def MIN_LOSER_PRICE : ℚ := 0.001

/-- The seconds-vs-milliseconds normalization of `executeArbitrageTrade`
(line 1426): an `endDate` below 10000000000 is taken to be in seconds. -/
def endDateMsOf (position : MarketPosition) : ℚ :=
  if position.endDate < 10000000000 then position.endDate * 1000 else position.endDate

/-- The clear-winner detection of `executeArbitrageTrade` (lines 1436-1445):
a side wins when its price reaches the clear-outcome threshold while the
other side sits inside the thin loser band. -/
def detectWinner (priceUp priceDown : ℚ) : Option Side :=
  if CLEAR_OUTCOME_THRESHOLD ≤ priceUp ∧ priceDown ≤ MAX_LOSER_PRICE ∧
      MIN_LOSER_PRICE ≤ priceDown then some Side.UP
  else if CLEAR_OUTCOME_THRESHOLD ≤ priceDown ∧ priceUp ≤ MAX_LOSER_PRICE ∧
      MIN_LOSER_PRICE ≤ priceUp then some Side.DOWN
  else none

/-- The cycle key of `executeArbitrageTrade` (line 1454):
condition id together with the expiry-minute bucket
`Math.floor(endDate / 60000)`. -/
def cycleKeyOf (position : MarketPosition) : String × ℤ :=
  (position.conditionId, ⌊position.endDate / 60000⌋)

/-- The module-level mutable state touched by `executeArbitrageTrade`:
`currentCapital`, `totalTrades`, `processedCycles` and the position it
mutates in place. -/
structure ArbState where
  capital : ℚ
  totalTrades : ℕ
  processedCycles : List (String × ℤ)
  position : MarketPosition
deriving Repr

/-- `executeArbitrageTrade` (parityDiagnostics.ts lines 1421-1486).
`minTrade`/`maxTrade` are `PAPER_MIN_TRADE`/`PAPER_MAX_TRADE` (environment
configured, defaults 0.50 and 15).  Guards in source order: already
arbitraged or settled; outside the pre-expiry window; no clear winner;
cycle key already processed (the key is recorded before the capital check);
available capital below the minimum trade.  On a purchase the losing side's
arbitrage shares and cost grow, capital shrinks, and the position is marked
arbitraged. -/
def executeArbitrageTrade (minTrade maxTrade : ℚ) (s : ArbState)
    (market : DiscoveredMarket) (now : ℚ) : ArbState :=
  let position := s.position
  if position.hasArbitragePosition ∨ position.isSettled then s
  else
    let timeToExpiration := endDateMsOf position - now
    if EXPIRATION_WINDOW_MS < timeToExpiration ∨ timeToExpiration < 10000 then s
    else
      let priceUp := market.priceUp
      let priceDown := market.priceDown
      match detectWinner priceUp priceDown with
      | none => s
      | some w =>
        let cycleKey := cycleKeyOf position
        if cycleKey ∈ s.processedCycles then s
        else
          let cycles := cycleKey :: s.processedCycles
          let availableCapital := min s.capital maxTrade
          if availableCapital < minTrade then { s with processedCycles := cycles }
          else
            let loserPrice := if w = Side.UP then priceDown else priceUp
            let arbShares := availableCapital / loserPrice
            let arbCost := availableCapital
            let position :=
              if w = Side.UP then
                { position with
                  arbSharesDown := position.arbSharesDown + arbShares
                  arbCostDown := position.arbCostDown + arbCost }
              else
                { position with
                  arbSharesUp := position.arbSharesUp + arbShares
                  arbCostUp := position.arbCostUp + arbCost }
            { capital := s.capital - arbCost
              totalTrades := s.totalTrades + 1
              processedCycles := cycles
              position := { position with hasArbitragePosition := true } }

/-- The winner test of `settlePositions` (line 1516): `priceUp >= 0.95`. -/
def upWonOf (priceUp : ℚ) : Bool := decide ((0.95 : ℚ) ≤ priceUp)

/-- The winner test of `settlePositions` (line 1517): `priceDown >= 0.95`. -/
def downWonOf (priceDown : ℚ) : Bool := decide ((0.95 : ℚ) ≤ priceDown)

/-- The module-level mutable state touched by `settlePosition`:
`currentCapital`, `totalPnL`, `totalCycles` and the settled position. -/
structure SettleState where
  capital : ℚ
  totalPnL : ℚ
  totalCycles : ℕ
  position : MarketPosition
deriving Repr

/-- The total cost of a position at settlement (line 1536): build-phase
plus arbitrage-phase cost on both sides. -/
def totalCostOf (position : MarketPosition) : ℚ :=
  position.costUp + position.costDown + position.arbCostUp + position.arbCostDown

/-- `settlePosition` (parityDiagnostics.ts lines 1532-1576): an already
settled position returns untouched; otherwise the final value is the
winning side's total shares at one dollar each — the UP branch first, then
DOWN, and the full cost back when neither side won — the value returns to
capital, the P&L is realized, and the position is flagged settled. -/
def settlePosition (s : SettleState) (upWon downWon : Bool) : SettleState :=
  let position := s.position
  if position.isSettled then s
  else
    let totalCost := totalCostOf position
    let finalValue :=
      if upWon then (position.sharesUp + position.arbSharesUp) * 1
      else if downWon then (position.sharesDown + position.arbSharesDown) * 1
      else totalCost
    let pnl := finalValue - totalCost
    { capital := s.capital + finalValue
      totalPnL := s.totalPnL + pnl
      totalCycles := s.totalCycles + 1
      position := { position with isSettled := true, settlementPnL := pnl } }

/-! ### Concrete instances used by witnesses and counterexamples -/

/-- A concrete build state matching the spec's round-trip test:
600 USD invested in UP at average 0.5, 400 USD in DOWN at average 0.4. -/
def buildStateRT : PositionBuildState :=
  { marketKey := "BTC-UpDown-15", targetUp := 600, targetDown := 400
    investedUp := 600, investedDown := 400
    lastTradeTime := 0, nextTradeTime := 0, tradeCount := 7
    avgPriceUp := 0.5, avgPriceDown := 0.4
    initialPriceUp := 0.5, initialPriceDown := 0.5
    lastRebalanceTime := 0, momentumBias := 0 }

/-- A concrete discovered market for the round-trip test. -/
def marketRT : DiscoveredMarket :=
  { conditionId := "0xabc", marketKey := "BTC-UpDown-15"
    marketName := "BTC up or down", marketSlug := "btc-up-or-down"
    assetUp := "tokU", assetDown := "tokD"
    endDate := 20000000000, priceUp := 0.6, priceDown := 0.4 }

/-- A concrete unsettled, not-yet-arbitraged position expiring at
epoch-millisecond 20000000000. -/
def posArb : MarketPosition :=
  { conditionId := "0xabc", marketKey := "BTC-UpDown-15"
    marketName := "BTC up or down", marketSlug := "btc-up-or-down"
    assetUp := "tokU", assetDown := "tokD", endDate := 20000000000
    sharesUp := 100, sharesDown := 120, costUp := 50, costDown := 48
    arbSharesUp := 0, arbSharesDown := 0, arbCostUp := 0, arbCostDown := 0
    currentPriceUp := 0.97, currentPriceDown := 0.03
    hasSplitPosition := true, hasArbitragePosition := false
    isSettled := false, settlementPnL := 0, createdAt := 0 }

/-- A market snapshot with a clear UP winner (0.97 / 0.03). -/
def marketArb : DiscoveredMarket :=
  { conditionId := "0xabc", marketKey := "BTC-UpDown-15"
    marketName := "BTC up or down", marketSlug := "btc-up-or-down"
    assetUp := "tokU", assetDown := "tokD"
    endDate := 20000000000, priceUp := 0.97, priceDown := 0.03 }

/-- An arbitrage state whose cycle key is already recorded. -/
def stateKeyed : ArbState :=
  { capital := 100, totalTrades := 3
    processedCycles := [("0xabc", 333333)], position := posArb }

/-- An arbitrage state with a fresh cycle and capital 0.30, below the
default minimum trade of 0.50. -/
def stateLowCap : ArbState :=
  { capital := 0.3, totalTrades := 0, processedCycles := [], position := posArb }

/-! ### Theorems -/

/-- Claim C1: settlement is idempotent: a second `settlePosition` call on the
same position is the identity on capital, total P&L, cycle count,
`settlementPnL` and `isSettled` — the whole settlement state is unchanged
from its value after the first call, because the first call always leaves
`isSettled` true and a settled position returns immediately. -/
theorem settlePosition_idempotent (s : SettleState) (upWon downWon : Bool) :
    settlePosition (settlePosition s upWon downWon) upWon downWon =
      settlePosition s upWon downWon := by
  by_cases h : s.position.isSettled = true
  · simp [settlePosition, h]
  · simp [settlePosition, h]

/-- Claim C3: finalizing the build state with investedUp=600, avgPriceUp=0.5,
investedDown=400, avgPriceDown=0.4 yields a position with sharesUp=1200,
sharesDown=1000, costUp=600, costDown=400. -/
theorem finalizePosition_roundtrip :
    (finalizePosition marketRT buildStateRT 0).sharesUp = 1200 ∧
    (finalizePosition marketRT buildStateRT 0).sharesDown = 1000 ∧
    (finalizePosition marketRT buildStateRT 0).costUp = 600 ∧
    (finalizePosition marketRT buildStateRT 0).costDown = 400 := by
  refine ⟨?_, ?_, ?_, ?_⟩ <;> norm_num [finalizePosition, buildStateRT, marketRT]

/-- Helper: with its cycle key already recorded, `executeArbitrageTrade`
leaves the whole state untouched — every path of the function either
returns before mutating anything or stops at the processed-cycles check. -/
theorem executeArbitrageTrade_noop_of_mem (minTrade maxTrade : ℚ) (s : ArbState)
    (market : DiscoveredMarket) (now : ℚ)
    (h : cycleKeyOf s.position ∈ s.processedCycles) :
    executeArbitrageTrade minTrade maxTrade s market now = s := by
  simp only [executeArbitrageTrade]
  split
  · rfl
  · split
    · rfl
    · split
      · rfl
      · simp [h]

/-- Claim C2: at most one arbitrage purchase per (market, expiry-minute)
cycle: once the cycle key of the position is in `processedCycles`, any
invocation of `executeArbitrageTrade` — with any prices, any time, any
trade bounds — returns the state unchanged: no capital is spent and the
position's arbitrage fields stay as they were. -/
theorem executeArbitrageTrade_once_per_cycle (minTrade maxTrade : ℚ)
    (s : ArbState) (market : DiscoveredMarket) (now : ℚ)
    (h : cycleKeyOf s.position ∈ s.processedCycles) :
    (executeArbitrageTrade minTrade maxTrade s market now).capital = s.capital ∧
    (executeArbitrageTrade minTrade maxTrade s market now).position = s.position ∧
    executeArbitrageTrade minTrade maxTrade s market now = s := by
  have hn := executeArbitrageTrade_noop_of_mem minTrade maxTrade s market now h
  exact ⟨by rw [hn], by rw [hn], hn⟩

/-- Witness for C2: a second invocation in the very tick window of a clear
UP outcome, with the cycle key recorded, changes nothing. -/
theorem executeArbitrageTrade_once_per_cycle_witness :
    cycleKeyOf stateKeyed.position ∈ stateKeyed.processedCycles ∧
    executeArbitrageTrade 0.5 15 stateKeyed marketArb 19999940000 = stateKeyed :=
  ⟨by simp only [stateKeyed, posArb, cycleKeyOf, List.mem_singleton,
      Prod.mk.injEq]; norm_num,
   (executeArbitrageTrade_once_per_cycle 0.5 15 stateKeyed marketArb 19999940000
     (by simp only [stateKeyed, posArb, cycleKeyOf, List.mem_singleton,
       Prod.mk.injEq]; norm_num)).2.2⟩

/-- Claim C10: when `executeArbitrageTrade` detects a clear winner inside the
pre-expiry window but the available capital is below the minimum trade
size, it still records the cycle key — and nothing else: capital and the
position are untouched.  Afterwards no invocation with that key recorded
can ever purchase, even with ample capital. -/
theorem executeArbitrageTrade_lowcap_burns_cycle (minTrade maxTrade : ℚ)
    (s : ArbState) (market : DiscoveredMarket) (now : ℚ)
    (h1 : s.position.hasArbitragePosition = false)
    (h2 : s.position.isSettled = false)
    (h3 : endDateMsOf s.position - now ≤ EXPIRATION_WINDOW_MS)
    (h4 : 10000 ≤ endDateMsOf s.position - now)
    (h5 : detectWinner market.priceUp market.priceDown ≠ none)
    (h6 : cycleKeyOf s.position ∉ s.processedCycles)
    (h7 : min s.capital maxTrade < minTrade) :
    executeArbitrageTrade minTrade maxTrade s market now =
      { s with processedCycles := cycleKeyOf s.position :: s.processedCycles } ∧
    ∀ (minTrade2 maxTrade2 : ℚ) (s2 : ArbState) (market2 : DiscoveredMarket)
      (now2 : ℚ), cycleKeyOf s2.position ∈ s2.processedCycles →
      executeArbitrageTrade minTrade2 maxTrade2 s2 market2 now2 = s2 := by
  constructor
  · obtain ⟨w, hw⟩ := Option.ne_none_iff_exists'.mp h5
    have hA : ¬(EXPIRATION_WINDOW_MS < endDateMsOf s.position - now) := not_lt.mpr h3
    have hB : ¬(endDateMsOf s.position - now < 10000) := not_lt.mpr h4
    simp [executeArbitrageTrade, h1, h2, hA, hB, hw, h6, h7]
  · intro minTrade2 maxTrade2 s2 market2 now2 hmem
    exact executeArbitrageTrade_noop_of_mem minTrade2 maxTrade2 s2 market2 now2 hmem

/-- Witness for C10: with 0.30 capital against a 0.50 minimum, the clear
UP outcome at 0.97/0.03 records the cycle key and buys nothing. -/
theorem executeArbitrageTrade_lowcap_burns_cycle_witness :
    min stateLowCap.capital 15 < 0.5 ∧
    executeArbitrageTrade 0.5 15 stateLowCap marketArb 19999940000 =
      { stateLowCap with
        processedCycles := cycleKeyOf stateLowCap.position ::
          stateLowCap.processedCycles } :=
  ⟨by norm_num [stateLowCap],
   (executeArbitrageTrade_lowcap_burns_cycle 0.5 15 stateLowCap marketArb
     19999940000 (by norm_num [stateLowCap, posArb])
     (by norm_num [stateLowCap, posArb])
     (by norm_num [stateLowCap, posArb, endDateMsOf, EXPIRATION_WINDOW_MS])
     (by norm_num [stateLowCap, posArb, endDateMsOf])
     (by norm_num [stateLowCap, marketArb, detectWinner,
        CLEAR_OUTCOME_THRESHOLD, MAX_LOSER_PRICE, MIN_LOSER_PRICE]; simp)
     (by norm_num [stateLowCap])
     (by norm_num [stateLowCap])).1⟩

/-- Claim C9: a double winner settles as an UP win: when both terminal prices
reach the 0.95 threshold, the settled value returned to capital is
`sharesUp + arbSharesUp` dollars and the realized P&L is that value minus
the total cost — DOWN holdings contribute nothing.  Moreover the full-cost
"unclear outcome" branch is only reached when neither side reaches 0.95:
whenever at least one side does, the P&L is the winning side's share count
minus total cost, UP taking precedence. -/
theorem settlePosition_double_winner (s : SettleState) (priceUp priceDown : ℚ)
    (hset : s.position.isSettled = false) :
    ((0.95 : ℚ) ≤ priceUp → (0.95 : ℚ) ≤ priceDown →
      (settlePosition s (upWonOf priceUp) (downWonOf priceDown)).capital =
        s.capital + (s.position.sharesUp + s.position.arbSharesUp) ∧
      (settlePosition s (upWonOf priceUp) (downWonOf priceDown)).position.settlementPnL =
        (s.position.sharesUp + s.position.arbSharesUp) - totalCostOf s.position) ∧
    ((0.95 : ℚ) ≤ priceUp ∨ (0.95 : ℚ) ≤ priceDown →
      (settlePosition s (upWonOf priceUp) (downWonOf priceDown)).position.settlementPnL =
        (if (0.95 : ℚ) ≤ priceUp then s.position.sharesUp + s.position.arbSharesUp
         else s.position.sharesDown + s.position.arbSharesDown) -
          totalCostOf s.position) := by
  constructor
  · intro hu hd
    simp [settlePosition, hset, upWonOf, hu]
  · intro hor
    by_cases hu : (0.95 : ℚ) ≤ priceUp
    · simp [settlePosition, hset, upWonOf, hu]
    · have hd : (0.95 : ℚ) ≤ priceDown := hor.resolve_left hu
      simp [settlePosition, hset, upWonOf, downWonOf, hu, hd]

/-- A concrete unsettled position and settlement state for the C9 witness:
10+2 UP shares, 120+0 DOWN shares, total cost 8. -/
def stateSettle : SettleState :=
  { capital := 100
    totalPnL := 0
    totalCycles := 0
    position :=
      { posArb with
        sharesUp := 10
        arbSharesUp := 2
        costUp := 3
        costDown := 4
        arbCostUp := 0
        arbCostDown := 1 } }

/-- Witness for C9: both prices at 0.96 settle as an UP win, returning 12
dollars of UP shares to the 100 of capital. -/
theorem settlePosition_double_winner_witness :
    stateSettle.position.isSettled = false ∧
    (settlePosition stateSettle (upWonOf 0.96) (downWonOf 0.96)).capital =
      stateSettle.capital +
        (stateSettle.position.sharesUp + stateSettle.position.arbSharesUp) :=
  ⟨by norm_num [stateSettle, posArb],
   ((settlePosition_double_winner stateSettle 0.96 0.96
     (by norm_num [stateSettle, posArb])).1
     (by norm_num) (by norm_num)).1⟩

/-- Claim C8: `entrySignal` evaluates UP before DOWN: whenever both branches
would individually fire — both bands matched and the mode condition
satisfied on each side's delta — the returned signal is a trade on UP. -/
theorem entrySignal_up_before_down (state : TapeState) (features : Features)
    (p : EntryParams)
    (hup : (upEval state features p).isSome = true)
    (_hdown : (downEval state features p).isSome = true) :
    (entrySignal state features (some p)).should_trade = true ∧
    (entrySignal state features (some p)).side = some Side.UP := by
  obtain ⟨r, hr⟩ := Option.isSome_iff_exists.mp hup
  simp [entrySignal, hr]

/-- A tick at 0.50/0.50 used by the C8 witness. -/
def tickBoth : TapeState :=
  { timestamp := 1000000, up_px := 0.5, down_px := 0.5, market := "BTC-UpDown-15" }

/-- A feature vector with no deltas, used by the C8 witness. -/
def featuresBoth : Features := { distance_from_50 := 0 }

/-- Entry bands [0,1] on both sides in mode "none": both sides qualify. -/
def entryBoth : EntryParams :=
  { up_price_min := some 0, up_price_max := some 1
    down_price_min := some 0, down_price_max := some 1
    mode := "none", momentum_threshold := 0.005 }

/-- Witness for C8: with both sides qualifying, the signal is UP. -/
theorem entrySignal_up_before_down_witness :
    (upEval tickBoth featuresBoth entryBoth).isSome = true ∧
    (downEval tickBoth featuresBoth entryBoth).isSome = true ∧
    (entrySignal tickBoth featuresBoth (some entryBoth)).side = some Side.UP :=
  ⟨by norm_num [upEval, tickBoth, featuresBoth, entryBoth]; decide,
   by norm_num [downEval, tickBoth, featuresBoth, entryBoth]; decide,
   (entrySignal_up_before_down tickBoth featuresBoth entryBoth
     (by norm_num [upEval, tickBoth, featuresBoth, entryBoth]; decide)
     (by norm_num [downEval, tickBoth, featuresBoth, entryBoth]; decide)).2⟩

/-- Helper: once the rolling 1s-window count has reached the per-second
cap, `cadenceOk` rejects, whatever the other checks say. -/
theorem cadenceOk_false_of_cap_le {lastTradeTs : Option ℚ} {recent : List ℚ}
    {p : CadenceParams} {now : ℚ}
    (h : p.max_trades_per_sec ≤ (tradesInWindow recent (now - 1000) now : ℚ)) :
    cadenceOk lastTradeTs recent (some p) now = false := by
  simp only [cadenceOk]
  split_ifs <;> simp_all

/-- Claim C7: `cadenceOk` allows a trade only when the count of recent trade
timestamps inside `[now-1000, now]` is strictly below the per-second cap,
and rejects when the count equals the cap exactly. -/
theorem cadenceOk_requires_strict_cap (lastTradeTs : Option ℚ) (recent : List ℚ)
    (p : CadenceParams) (now : ℚ) :
    (cadenceOk lastTradeTs recent (some p) now = true →
      (tradesInWindow recent (now - 1000) now : ℚ) < p.max_trades_per_sec) ∧
    ((tradesInWindow recent (now - 1000) now : ℚ) = p.max_trades_per_sec →
      cadenceOk lastTradeTs recent (some p) now = false) := by
  constructor
  · intro h
    by_contra hc
    push_neg at hc
    rw [cadenceOk_false_of_cap_le hc] at h
    exact Bool.false_ne_true h
  · intro he
    exact cadenceOk_false_of_cap_le (le_of_eq he.symm)

/-- Cadence parameters with a per-second cap of 2, for the C7 witness. -/
def cadTwo : CadenceParams :=
  { min_inter_trade_ms := 0, max_trades_per_sec := 2, max_trades_per_min := 30 }

/-- Witness for C7: two timestamps inside the trailing second meet the cap
of two exactly, and the trade is rejected. -/
theorem cadenceOk_requires_strict_cap_witness :
    (tradesInWindow [0, 500] (1000 - 1000) 1000 : ℚ) = cadTwo.max_trades_per_sec ∧
    cadenceOk none [0, 500] (some cadTwo) 1000 = false :=
  ⟨by norm_num [tradesInWindow, cadTwo],
   (cadenceOk_requires_strict_cap none [0, 500] cadTwo 1000).2
     (by norm_num [tradesInWindow, cadTwo])⟩

/-- An 9.9/0 skewed inventory for the C6 counterexample. -/
def invSkew : InventoryState := { inv_up_shares := 9.9, inv_down_shares := 0 }

/-- Inventory caps 10/10/100 with rebalance ratio 0.75. -/
def invParams : InventoryParams :=
  { rebalance_ratio_R := 0.75, max_up_shares := 10
    max_down_shares := 10, max_total_shares := 100 }

/-- Counterexample to C6 as stated: at 9.9 UP shares against a cap of 10,
the UP side is returned, yet a subsequent trade of a single share already
pushes the side to 10.9, past its cap — the function checks the pre-trade
holdings only and never sees the trade size. -/
theorem inventory_post_trade_counterexample :
    inventoryOkAndRebalance invSkew (some invParams) Side.UP = some Side.UP ∧
    invParams.max_up_shares < invSkew.inv_up_shares + 1 := by
  constructor
  · norm_num [inventoryOkAndRebalance, invSkew, invParams]
  · norm_num [invSkew, invParams]

/-- Claim C6, amended: when an inventory configuration is present, any side
returned by `inventoryOkAndRebalance` has its current (pre-trade) holdings
strictly below that side's cap, and the current total strictly below the
max-total cap; every path that cannot guarantee this returns no side. -/
theorem inventory_caps_pre_trade (inventory : InventoryState)
    (p : InventoryParams) (proposedSide returned : Side)
    (h : inventoryOkAndRebalance inventory (some p) proposedSide = some returned) :
    (returned = Side.UP → inventory.inv_up_shares < p.max_up_shares) ∧
    (returned = Side.DOWN → inventory.inv_down_shares < p.max_down_shares) ∧
    inventory.inv_up_shares + inventory.inv_down_shares < p.max_total_shares := by
  simp only [inventoryOkAndRebalance] at h
  split_ifs at h with c1 c2 c3 c4 c5 c6 c7 c8 <;> simp_all

/-- A balanced 1/1 inventory for the C6 witness. -/
def invBal : InventoryState := { inv_up_shares := 1, inv_down_shares := 1 }

/-- Witness for C6 (amended): the returned UP side sits below its cap and
the total below the max-total cap. -/
theorem inventory_caps_pre_trade_witness :
    inventoryOkAndRebalance invBal (some invParams) Side.UP = some Side.UP ∧
    invBal.inv_up_shares < invParams.max_up_shares :=
  ⟨by norm_num [inventoryOkAndRebalance, invBal, invParams],
   (inventory_caps_pre_trade invBal invParams Side.UP Side.UP
     (by norm_num [inventoryOkAndRebalance, invBal, invParams])).1 rfl⟩

/-- One unfolding step of the bucket scan on at least two edges. -/
theorem bucketScan_cons_cons (px a b : ℚ) (l : List ℚ) :
    bucketScan px (a :: b :: l) =
      if a ≤ px ∧ px ≤ b then some 0
      else (bucketScan px (b :: l)).map (· + 1) := rfl

/-- For strictly ascending edges, the scan sends the price sitting exactly
on edge `i` to bin 0 for `i ≤ 1` and to bin `i - 1` otherwise: the bin
whose inclusive upper edge it is wins first. -/
theorem bucketScan_get_sorted (rest : List ℚ) :
    ∀ (a b : ℚ), (a :: b :: rest).Sorted (· < ·) →
    ∀ (i : ℕ) (hi : i < (a :: b :: rest).length),
    bucketScan ((a :: b :: rest).get ⟨i, hi⟩) (a :: b :: rest) =
      some (if i ≤ 1 then 0 else i - 1) := by
  induction rest with
  | nil =>
    intro a b hs i hi
    have hab : a < b := (List.sorted_cons.mp hs).1 b (by simp)
    simp only [List.length_cons, List.length_nil] at hi
    interval_cases i
    · simp [bucketScan_cons_cons, le_refl, le_of_lt hab]
    · simp [bucketScan_cons_cons, le_refl, le_of_lt hab]
  | cons c rest ih =>
    intro a b hs i hi
    have hab : a < b := (List.sorted_cons.mp hs).1 b (by simp)
    have hs' : (b :: c :: rest).Sorted (· < ·) := (List.sorted_cons.mp hs).2
    match i with
    | 0 => simp [bucketScan_cons_cons, le_refl, le_of_lt hab]
    | 1 => simp [bucketScan_cons_cons, le_refl, le_of_lt hab]
    | n + 2 =>
      have hi' : n + 1 < (b :: c :: rest).length := by
        simpa using Nat.lt_of_succ_lt_succ hi
      have hgx : (a :: b :: c :: rest).get ⟨n + 2, hi⟩ =
          (b :: c :: rest).get ⟨n + 1, hi'⟩ := rfl
      have hbpx : b < (b :: c :: rest).get ⟨n + 1, hi'⟩ := by
        have h0 : (⟨0, by simp⟩ : Fin (b :: c :: rest).length) < ⟨n + 1, hi'⟩ := by
          simp [Fin.lt_def]
        simpa using hs'.rel_get_of_lt h0
      have hcheck : ¬(a ≤ (b :: c :: rest).get ⟨n + 1, hi'⟩ ∧
          (b :: c :: rest).get ⟨n + 1, hi'⟩ ≤ b) := by
        rintro ⟨-, hle⟩
        exact absurd (lt_of_lt_of_le hbpx hle) (lt_irrefl b)
      rw [hgx, bucketScan_cons_cons, if_neg hcheck, ih b c hs' (n + 1) hi']
      have h1 : ¬(n + 2 ≤ 1) := by omega
      rcases Nat.eq_zero_or_pos n with rfl | hn
      · simp
      · have h2 : ¬(n + 1 ≤ 1) := by omega
        simp [h1, h2]

/-- Counterexample to C4 as stated: with the strictly ascending edges
[0, 1, 2], the price 1 — exactly edge 1 — resolves to bin 0, not bin 1:
the scan's inclusive upper bound of bin 0 catches it first. -/
theorem bucketIndex_edge_counterexample :
    ([0, 1, 2] : List ℚ).Sorted (· < ·) ∧
    ([0, 1, 2] : List ℚ).get ⟨1, by norm_num⟩ = 1 ∧
    bucketIndexFor [0, 1, 2] 1 = 0 ∧
    bucketIndexFor [0, 1, 2] 1 ≠ 1 := by
  refine ⟨?_, rfl, ?_, ?_⟩
  · norm_num [List.sorted_cons]
  · norm_num [bucketIndexFor, bucketScan_cons_cons, bucketScan]
  · norm_num [bucketIndexFor, bucketScan_cons_cons, bucketScan]

/-- Claim C4, amended: for every strictly ascending edge sequence with at
least two edges, a price lying exactly on edge `i` resolves to bin 0 when
`i = 0` and to bin `i - 1` when `i ≥ 1`: the scan checks both ends
inclusively and the first matching bin — the one with `edge[i]` as its
upper edge — wins. -/
theorem bucketIndexFor_on_edge (edges : List ℚ) (hs : edges.Sorted (· < ·))
    (h2 : 2 ≤ edges.length) (i : ℕ) (hi : i < edges.length) :
    bucketIndexFor edges (edges.get ⟨i, hi⟩) =
      if i = 0 then 0 else (i : ℤ) - 1 := by
  cases edges with
  | nil => simp at hi
  | cons a t =>
    cases t with
    | nil =>
      simp only [List.length_cons, List.length_nil] at h2
      omega
    | cons b rest =>
      have hscan := bucketScan_get_sorted rest a b hs i hi
      simp only [bucketIndexFor, hscan]
      split_ifs <;> omega

/-- Witness for C4 (amended): on edges [0, 1, 2] the price 0 — edge 0 —
resolves to bin 0 and the price 1 — edge 1 — to bin 0 = 1 - 1. -/
theorem bucketIndexFor_on_edge_witness :
    ([0, 1, 2] : List ℚ).Sorted (· < ·) ∧
    bucketIndexFor [0, 1, 2] (([0, 1, 2] : List ℚ).get ⟨0, by norm_num⟩) = 0 ∧
    bucketIndexFor [0, 1, 2] (([0, 1, 2] : List ℚ).get ⟨2, by norm_num⟩) = 1 :=
  ⟨by norm_num [List.sorted_cons],
   bucketIndexFor_on_edge [0, 1, 2] (by norm_num [List.sorted_cons])
     (by norm_num) 0 (by norm_num),
   by
    have h := bucketIndexFor_on_edge [0, 1, 2] (by norm_num [List.sorted_cons])
      (by norm_num) 2 (by norm_num)
    simpa using h⟩

/-- The `findClosest` scan returns an element of the scanned data (the
seed or a list member) whose distance to the target is minimal among the
seed and the list. -/
theorem closestAux_spec (target : ℚ) (c : PriceHistory) (l : List PriceHistory) :
    (closestAux target c l = c ∨ closestAux target c l ∈ l) ∧
    |(closestAux target c l).timestamp - target| ≤ |c.timestamp - target| ∧
    ∀ x ∈ l, |(closestAux target c l).timestamp - target| ≤
      |x.timestamp - target| := by
  induction l generalizing c with
  | nil => exact ⟨Or.inl rfl, le_refl _, by simp⟩
  | cons h t ih =>
    simp only [closestAux]
    by_cases hlt : |h.timestamp - target| < |c.timestamp - target|
    · rw [if_pos hlt]
      obtain ⟨hm, hle, hall⟩ := ih h
      refine ⟨?_, ?_, ?_⟩
      · rcases hm with he | hm'
        · exact Or.inr (by simp [he])
        · exact Or.inr (List.mem_cons_of_mem _ hm')
      · exact le_trans hle (le_of_lt hlt)
      · intro x hx
        rcases List.mem_cons.mp hx with rfl | hx'
        · exact hle
        · exact hall x hx'
    · rw [if_neg hlt]
      obtain ⟨hm, hle, hall⟩ := ih c
      refine ⟨?_, hle, ?_⟩
      · rcases hm with he | hm'
        · exact Or.inl he
        · exact Or.inr (List.mem_cons_of_mem _ hm')
      · intro x hx
        rcases List.mem_cons.mp hx with rfl | hx'
        · exact le_trans hle (not_lt.mp hlt)
        · exact hall x hx'

/-- A window delta is produced exactly when some scanned sample sits within
twice the window of the target time: the scan keeps a minimal-distance
sample, so the acceptance test succeeds iff some sample passes it. -/
theorem windowDelta_isSome_iff (state : TapeState) (sorted : List PriceHistory)
    (seconds : ℚ) :
    (windowDelta state sorted seconds).isSome = true ↔
      ∃ h ∈ sorted,
        |h.timestamp - (state.timestamp - seconds * 1000)| < seconds * 2000 := by
  cases sorted with
  | nil => simp [windowDelta]
  | cons h0 rest =>
    simp only [windowDelta]
    obtain ⟨hmem, hle0, hmin⟩ :=
      closestAux_spec (state.timestamp - seconds * 1000) h0 rest
    constructor
    · intro hsome
      by_cases hc : |(closestAux (state.timestamp - seconds * 1000) h0
          rest).timestamp - (state.timestamp - seconds * 1000)| < seconds * 2000
      · refine ⟨closestAux (state.timestamp - seconds * 1000) h0 rest, ?_, hc⟩
        rcases hmem with he | hm
        · rw [he]; exact List.mem_cons_self _ _
        · exact List.mem_cons_of_mem _ hm
      · rw [if_neg hc] at hsome
        simp at hsome
    · rintro ⟨x, hx, hdist⟩
      have hc : |(closestAux (state.timestamp - seconds * 1000) h0
          rest).timestamp - (state.timestamp - seconds * 1000)| < seconds * 2000 := by
        rcases List.mem_cons.mp hx with rfl | hx'
        · exact lt_of_le_of_lt hle0 hdist
        · exact lt_of_le_of_lt (hmin x hx') hdist
      rw [if_pos hc]
      rfl

/-- Claim C5: for every history buffer and every window w ∈ {1s, 5s, 30s},
`computeFeatures` includes the delta feature for w — its UP, DOWN and
side-aliased fields together — iff some history sample's timestamp lies
within 2w of (now − w) (strict inequality); otherwise the fields are
absent, never defaulted to 0. -/
theorem computeFeatures_delta_presence (state : TapeState)
    (history : List PriceHistory) :
    (((computeFeatures state history).delta_1s_up_px ≠ none ↔
        ∃ h ∈ history, |h.timestamp - (state.timestamp - 1000)| < 2000) ∧
      ((computeFeatures state history).delta_1s_down_px ≠ none ↔
        ∃ h ∈ history, |h.timestamp - (state.timestamp - 1000)| < 2000) ∧
      ((computeFeatures state history).delta_1s_side_px ≠ none ↔
        ∃ h ∈ history, |h.timestamp - (state.timestamp - 1000)| < 2000)) ∧
    (((computeFeatures state history).delta_5s_up_px ≠ none ↔
        ∃ h ∈ history, |h.timestamp - (state.timestamp - 5000)| < 10000) ∧
      ((computeFeatures state history).delta_5s_down_px ≠ none ↔
        ∃ h ∈ history, |h.timestamp - (state.timestamp - 5000)| < 10000) ∧
      ((computeFeatures state history).delta_5s_side_px ≠ none ↔
        ∃ h ∈ history, |h.timestamp - (state.timestamp - 5000)| < 10000)) ∧
    (((computeFeatures state history).delta_30s_up_px ≠ none ↔
        ∃ h ∈ history, |h.timestamp - (state.timestamp - 30000)| < 60000) ∧
      ((computeFeatures state history).delta_30s_down_px ≠ none ↔
        ∃ h ∈ history, |h.timestamp - (state.timestamp - 30000)| < 60000) ∧
      ((computeFeatures state history).delta_30s_side_px ≠ none ↔
        ∃ h ∈ history, |h.timestamp - (state.timestamp - 30000)| < 60000)) := by
  cases history with
  | nil => simp [computeFeatures]
  | cons h0 rest =>
    have k2 : ∀ s : ℚ,
        windowDelta state ((h0 :: rest).mergeSort
          (fun a b => a.timestamp ≤ b.timestamp)) s = none ↔
        ¬ ∃ h ∈ h0 :: rest,
          |h.timestamp - (state.timestamp - s * 1000)| < s * 2000 := by
      intro s
      rw [← Option.not_isSome_iff_eq_none, windowDelta_isSome_iff]
      simp only [List.mem_mergeSort]
    simp only [computeFeatures, ne_eq, Option.map_eq_none', k2, not_not]
    norm_num

end EdgeBot
